import Mathlib

/-!
Shallow embedding of the traffics port forwarder (github.com/woshikedayaa/traffics)
and proofs about its observable behaviour.

Conventions:
* Go strings are Lean `String`s; Go machine integers are `Nat` (all the values
  involved are small and non-negative, no overflow occurs on the modelled paths).
* `netip.Addr` is modelled by `Addr`: the zero value (invalid), an IPv4 address
  or an IPv6 address, each carrying an abstract numeric payload.
* Time is modelled in seconds as `Nat`; the Go zero `time.Time` corresponds to
  `0` and `t.After(u)` to `u < t`.
* External collaborators (the OS socket layer, `url.Parse`, `strconv`,
  `time.ParseDuration`, `rand.Shuffle`) enter as explicit parameters or oracle
  functions; everything inside the repository is translated statement by
  statement from the source files.
-/

namespace Traffics

/-! ### networks/constant/constant.go -/

/-- `ResolverDefaultReadTimeout = 5 * time.Second`, in seconds. -/
def ResolverDefaultReadTimeout : Nat := 5

def FamilyIPv4 : String := "4"

def FamilyIPv6 : String := "6"

/-! ### networks/constant/protocol.go

`type Protocol string` with the four constants. -/

abbrev Protocol := String

def ProtocolTCP : Protocol := "tcp"

def ProtocolUDP : Protocol := "udp"

def ProtocolIP : Protocol := "ip"

def ProtocolTCPUDP : Protocol := "tcp+udp"

/-- `strings.Split(s, "+")` for the one-character separator `+`, over the
character list: accumulate until a `+`, emit, continue. Matches Go's
semantics (`Split("", "+") = [""]`, `Split("a+b", "+") = ["a", "b"]`). -/
def goSplitPlusAux : List Char → List Char → List String
  | [], acc => [String.mk acc.reverse]
  | c :: rest, acc =>
    if c = '+' then String.mk acc.reverse :: goSplitPlusAux rest []
    else goSplitPlusAux rest (c :: acc)

def goSplitPlus (s : String) : List String :=
  goSplitPlusAux s.toList []

/-- `ParseProtocol` from protocol.go: exact strings `tcp`/`udp`/`ip`, then the
`+`-split check for `tcp+udp` and `udp+tcp`; anything else maps to the empty
protocol. -/
def ParseProtocol (name : String) : Protocol :=
  if name.length = 0 then ""
  else if name = ProtocolTCP then ProtocolTCP
  else if name = ProtocolUDP then ProtocolUDP
  else if name = ProtocolIP then ProtocolIP
  else
    match goSplitPlus name with
    | [a, b] =>
      if (a = "tcp" ∧ b = "udp") ∨ (a = "udp" ∧ b = "tcp") then ProtocolTCPUDP
      else ""
    | _ => ""

/-! ### networks/constant/networks.go -/

abbrev NetworkVersion := Nat

def NetworkVersion4 : NetworkVersion := 4

def NetworkVersion6 : NetworkVersion := 6

def NetworkVersionDual : NetworkVersion := 0

structure Network where
  Protocol : Protocol
  Version : NetworkVersion
deriving DecidableEq

/-- `ParseNetwork` from networks.go. The length-3 test inside the `tcp4`-style
cases mirrors the source's `len(network) == 3` check that singles out `ip4` /
`ip6`; otherwise the protocol is the first three bytes of the string. -/
def ParseNetwork (network : String) : Except Unit Network :=
  if network = ProtocolTCP ∨ network = ProtocolUDP ∨ network = ProtocolIP then
    .ok { Protocol := network, Version := NetworkVersionDual }
  else if network = "tcp4" ∨ network = "udp4" ∨ network = "ip4" then
    .ok { Protocol := if network.length = 3 then ProtocolIP else network.take 3,
          Version := NetworkVersion4 }
  else if network = "tcp6" ∨ network = "udp6" ∨ network = "ip6" then
    .ok { Protocol := if network.length = 3 then ProtocolIP else network.take 3,
          Version := NetworkVersion6 }
  else
    .error ()

/-- `Network.String()`: `string(n.Protocol) + strconv.Itoa(int(n.Version))`. -/
def Network.goString (n : Network) : String :=
  n.Protocol ++ toString n.Version

abbrev ProtocolList := List String

/-- `ProtocolList.Contain`: re-parse the operand and test membership of its
protocol in the list. -/
def ProtocolList.Contain (n : ProtocolList) (network : String) : Bool :=
  match ParseNetwork network with
  | .error _ => false
  | .ok nn => n.contains nn.Protocol

/-! ### netip.Addr model

The zero `netip.Addr` is invalid (`IsValid() = false`, `Is4() = Is6() = false`);
a valid address is IPv4 or IPv6 (exclusive, as in `netip`), carrying an
abstract payload. -/

inductive Addr where
  | invalid : Addr
  | v4 (a : Nat) : Addr
  | v6 (a : Nat) : Addr
deriving DecidableEq

def Addr.Is4 : Addr → Bool
  | .v4 _ => true
  | _ => false

def Addr.Is6 : Addr → Bool
  | .v6 _ => true
  | _ => false

def Addr.IsValid : Addr → Bool
  | .invalid => false
  | _ => true

/-- `netip.AddrPort`. -/
structure AddrPort where
  addr : Addr
  port : Nat
deriving DecidableEq

/-! ### networks/resolver (common.go): Strategy

`type Strategy uint8` with iota constants 0..4 and `strategyMax = 5`. -/

abbrev Strategy := Nat

def StrategyDefault : Strategy := 0

def StrategyPreferIPv4 : Strategy := 1

def StrategyPreferIPv6 : Strategy := 2

def StrategyIPv4Only : Strategy := 3

def StrategyIPv6Only : Strategy := 4

def strategyMax : Strategy := 5

def Strategy.IsValid (s : Strategy) : Bool := s < strategyMax

/-! ### networks/resolver (common.go): randomSortAddresses

The source declares `var copied []netip.Addr` (a nil slice of length 0) and
then `copy(copied, raw)`; Go's `copy` writes `min(len(dst), len(src))`
elements, so nothing is copied. `rand.Shuffle` then swaps pairs of in-bounds
indices of `copied`. The shuffle's swap sequence is an oracle parameter
`swaps`; Go's `copy` and an index swap are modelled exactly. -/

/-- Go `copy(dst, src)`: the first `min(len dst, len src)` elements of `dst`
are replaced by those of `src`; the rest of `dst` is untouched. Returns the
resulting destination slice contents. -/
def goCopy (dst src : List Addr) : List Addr :=
  src.take (min dst.length src.length) ++ dst.drop (min dst.length src.length)

/-- Swap elements `i` and `j` of a list (identity when out of bounds, which
`rand.Shuffle` never produces). -/
def listSwap (l : List Addr) (i j : Nat) : List Addr :=
  match l.get? i, l.get? j with
  | some a, some b => (l.set i b).set j a
  | _, _ => l

def applySwaps (swaps : List (Nat × Nat)) (l : List Addr) : List Addr :=
  swaps.foldl (fun acc p => listSwap acc p.1 p.2) l

/-- `randomSortAddresses` from common.go, with the shuffle's swap sequence as
an oracle. Faithful to the source: the destination of `copy` is the nil slice
`copied`. -/
def randomSortAddresses (swaps : List (Nat × Nat)) (raw : List Addr) : List Addr :=
  if raw.length ≤ 1 then raw
  else applySwaps swaps (goCopy [] raw)

/-- `SystemResolver.Lookup` from common.go, after the host stack's
`LookupIPAddr` returned `answer` (the OS lookup is external input). The two
shuffles get independent swap oracles. Returns `error` on an invalid
strategy. -/
def systemResolverLookup (swapsA swapsAAAA : List (Nat × Nat)) (strategy : Strategy)
    (answer : List Addr) : Except Unit (List Addr × List Addr) :=
  if ¬ strategy.IsValid then .error ()
  else
    let lists := answer.foldl
      (fun (acc : List Addr × List Addr) addr =>
        if ¬ addr.IsValid then acc
        else
          let acc := if strategy ≠ StrategyIPv6Only ∧ addr.Is4 then (acc.1 ++ [addr], acc.2) else acc
          if strategy ≠ StrategyIPv4Only ∧ addr.Is6 then (acc.1, acc.2 ++ [addr]) else acc)
      ([], [])
    .ok (randomSortAddresses swapsA lists.1, randomSortAddresses swapsAAAA lists.2)

/-! ### networks/dialer (dialer.go): DefaultDialer.DialSerial

The `DefaultDialer` owns six distinguishable dialing capabilities; which one a
candidate address is dialed with is the observable modelled here. The OS-level
connect outcome is an oracle `SubDialer → Addr → Bool`. -/

inductive SubDialer where
  | dialer4 : SubDialer
  | dialer6 : SubDialer
  | udpDialer4 : SubDialer
  | udpDialer6 : SubDialer
  | defaultTfo : SubDialer
  | defaultD : SubDialer
deriving DecidableEq

structure DialAttempt where
  sub : SubDialer
  addr : Addr
deriving DecidableEq

inductive DialError where
  | noAddresses : DialError
  | invalidNetwork : DialError
  | noAvailableAddress : DialError
  | ctxCanceled : DialError
  | allFailed : DialError
deriving DecidableEq

/-- `filterAddressByNetwork` from dialer.go. -/
def filterAddressByNetwork (network : Network) (addr : List Addr) : List Addr :=
  if network.Version = NetworkVersionDual then
    addr.filter (fun it => it.IsValid)
  else if network.Version = NetworkVersion4 then
    addr.filter (fun it => it.IsValid && it.Is4)
  else if network.Version = NetworkVersion6 then
    addr.filter (fun it => it.IsValid && it.Is6)
  else
    addr

/-- The per-candidate `switch { case addr.Is4(): ...; case addr.Is6(): ...;
default: ... }` of `DialSerial`, returning `(udpDialer, tcpDialer)`. The
source's `Is6` branch selects `d.udpDialer4` / `d.dialer4` — the same
sub-dialers as the `Is4` branch (dialer.go lines 208-210). -/
def familySubDialers (addr : Addr) : SubDialer × SubDialer :=
  if addr.Is4 then (SubDialer.udpDialer4, SubDialer.dialer4)
  else if addr.Is6 then (SubDialer.udpDialer4, SubDialer.dialer4)
  else (SubDialer.defaultD, SubDialer.defaultTfo)

/-- The candidate loop of `DialSerial`: choose the sub-dialer from the address
family and the parsed protocol, attempt the connect, return on first success,
else record the failure and move on. Returns the trace of attempts alongside
the result. -/
def dialSerialLoop (oracle : SubDialer → Addr → Bool) (ctxDone : Bool) (nn : Network) :
    List Addr → List DialAttempt × Except DialError Addr
  | [] => ([], .error .allFailed)
  | addr :: rest =>
    if ctxDone then ([], .error .ctxCanceled)
    else
      let pair := familySubDialers addr
      let used : SubDialer :=
        if nn.Protocol = ProtocolUDP then pair.1
        else if nn.Protocol = ProtocolTCP then pair.2
        else SubDialer.defaultD
      if oracle used addr then ([⟨used, addr⟩], .ok addr)
      else
        let r := dialSerialLoop oracle ctxDone nn rest
        (⟨used, addr⟩ :: r.1, r.2)

/-- `DefaultDialer.DialSerial` from dialer.go. `port` does not influence the
sub-dialer choice; it is kept for shape. -/
def DialSerial (oracle : SubDialer → Addr → Bool) (ctxDone : Bool) (network : String)
    (addresses : List Addr) (_port : Nat) : List DialAttempt × Except DialError Addr :=
  if addresses.isEmpty then ([], .error .noAddresses)
  else
    match ParseNetwork network with
    | .error _ => ([], .error .invalidNetwork)
    | .ok nn =>
      let available := filterAddressByNetwork nn addresses
      if available.isEmpty then ([], .error .noAvailableAddress)
      else dialSerialLoop oracle ctxDone nn available

/-! ### traffics.go: TrafficHandler.newUdpLoop

Per-flow upstream-read loop. A read outcome is either `n` bytes of data or an
error; for an error the loop inspects whether it is a `*net.OpError` whose
`Err` satisfies `errors.Is(_, syscall.ECONNREFUSED)`. The sequence of read
outcomes delivered by the socket is the loop's input. -/

inductive UdpReadResult where
  | ok (data : List Nat) : UdpReadResult
  | err (isOpError : Bool) (underlyingConnRefused : Bool) : UdpReadResult
deriving DecidableEq

/-- Result of running `newUdpLoop` on a finite prefix of read outcomes:
whether the loop is still running (input exhausted without a terminating
error), the connection-track keys afterwards, whether the upstream socket was
closed, and the datagrams written back to the client in order. -/
structure UdpLoopResult where
  stillRunning : Bool
  track : List AddrPort
  connClosed : Bool
  written : List (List Nat × AddrPort)
deriving DecidableEq

/-- `TrafficHandler.newUdpLoop` from traffics.go over a list of read outcomes.
An `ECONNREFUSED` op-error hits the `goto again` and the loop keeps reading;
any other error returns, and the deferred block deletes the flow from
`udpConnTrack` and closes the socket. A successful read of `n ≠ 0` bytes is
written back to the client. -/
def newUdpLoop (client : AddrPort) (track : List AddrPort) :
    List UdpReadResult → UdpLoopResult
  | [] => { stillRunning := true, track := track, connClosed := false, written := [] }
  | .ok data :: rest =>
    let r := newUdpLoop client track rest
    if data.length ≠ 0 then { r with written := (data, client) :: r.written } else r
  | .err isOpError refused :: rest =>
    if isOpError && refused then newUdpLoop client track rest
    else
      { stillRunning := false, track := track.filter (fun k => k ≠ client),
        connClosed := true, written := [] }

/-! ### traffics.go: Traffics.initDialer

`t.nameToDialer` maps each remote name to `(server:port, dialer)`. Only the
fields of `RemoteConfig` that influence `initDialer`'s success or the stored
entry are carried; `dialer.NewDefault` fails exactly when `FwMark ≠ 0` on a
non-Linux platform (dialer.go lines 59-65), so the platform is a parameter. -/

structure RemoteConfig where
  Name : String
  Server : String
  Port : Nat
  DNS : String
  FwMark : Nat
deriving DecidableEq

structure DialerEntry where
  address : String
deriving DecidableEq

/-- `net.JoinHostPort`: brackets the host when it contains a colon. -/
def joinHostPort (host port : String) : String :=
  if host.contains ':' then "[" ++ host ++ "]:" ++ port
  else host ++ ":" ++ port

/-- `dialer.NewDefault` succeeds unless a routing mark is requested off
Linux. -/
def newDefaultOk (goosLinux : Bool) (fwMark : Nat) : Bool :=
  fwMark = 0 || goosLinux

/-- The loop body of `Traffics.initDialer`: reject an empty name, reject a
name already present in the table, build the dialer, insert the entry. On
error the table built so far is kept (the Go map `t.nameToDialer` persists). -/
def initDialerAux (goosLinux : Bool) :
    List RemoteConfig → List (String × DialerEntry) →
    List (String × DialerEntry) × Option String
  | [], table => (table, none)
  | v :: rest, table =>
    if v.Name = "" then (table, some ("no name specified for " ++ v.Server))
    else if table.any (fun e => e.1 = v.Name) then
      (table, some ("duplicated remote name: " ++ v.Name))
    else if ¬ newDefaultOk goosLinux v.FwMark then
      (table, some "routing mark is only supported on Linux")
    else
      initDialerAux goosLinux rest
        (table ++ [(v.Name, ⟨joinHostPort v.Server (toString v.Port)⟩)])

/-- `Traffics.initDialer` starting from the empty table. -/
def initDialer (goosLinux : Bool) (remotes : List RemoteConfig) :
    List (String × DialerEntry) × Option String :=
  initDialerAux goosLinux remotes []

/-! ### networks/resolver (rawclient.go): the read deadline in exchange

After the write loop, the source runs

  var deadline time.Time
  if dead, ok := ctx.Deadline(); ok {
      if time.Now().After(deadline) { return nil, context.DeadlineExceeded }
      deadline = dead
  } else {
      deadline = time.Now().Add(constant.ResolverDefaultReadTimeout)
  }
  _ = conn.SetReadDeadline(deadline)

Note the `After` compares against the just-declared zero `deadline`, not
against `dead`. Time is `Nat` seconds with the Go zero time at `0`. The
result is the deadline handed to `SetReadDeadline`, or `error` for the early
`context.DeadlineExceeded` return. -/
def exchangeReadDeadline (now : Nat) (ctxDeadline : Option Nat) : Except Unit Nat :=
  match ctxDeadline with
  | some dead =>
    if 0 < now then .error ()
    else .ok dead
  | none => .ok (now + ResolverDefaultReadTimeout)

/-! ### networks/listener/listen.go: the receive loops

A receive outcome is either a datagram of `n` bytes from some endpoint or an
error, for which the loop checks whether the listener's context is already
done. The value of each loop run is the sequence of payloads handed to the
packet handler. -/

inductive RecvEvent where
  | ok (n : Nat) (remote : AddrPort) : RecvEvent
  | err (ctxDone : Bool) : RecvEvent
deriving DecidableEq

/-- `Listener.loopUdpIn`: the zero-length check is commented out in the
source (listen.go lines 238-241), so every successfully received datagram —
including an empty one — is handed to `packetHandler.HandlePacket`. -/
def loopUdpIn : List RecvEvent → List (Nat × AddrPort)
  | [] => []
  | .ok n remote :: rest => (n, remote) :: loopUdpIn rest
  | .err ctxDone :: rest => if ctxDone then [] else loopUdpIn rest

/-- `Listener.loopUdpInOOb`: here the `n == 0` check is active; an empty
datagram is logged and skipped. -/
def loopUdpInOOb : List RecvEvent → List (Nat × AddrPort)
  | [] => []
  | .ok n remote :: rest =>
    if n = 0 then loopUdpInOOb rest else (n, remote) :: loopUdpInOOb rest
  | .err ctxDone :: rest => if ctxDone then [] else loopUdpInOOb rest

/-! ### networks/listener/listen.go: Listener.Start

The observable control flow of `Start`: the TCP branch binds and logs
`l.tcpListener.Addr()` (just assigned); the UDP branch binds, spawns the
receive loop, and then logs `l.tcpListener.Addr()` as well (listen.go line
120) — calling `Addr()` on a nil interface value panics. OS bind outcomes are
the `tcpBindOk` / `udpBindOk` oracles. Socket handles are `Option Unit`. -/

structure ListenerState where
  tcpListener : Option Unit
  udpConn : Option Unit
deriving DecidableEq

inductive StartOutcome where
  | ok (st : ListenerState) : StartOutcome
  | bindError : StartOutcome
  | nilDeref : StartOutcome
deriving DecidableEq

/-- The UDP half of `Start` (listen.go lines 108-122), entered with the state
left by the TCP half. -/
def listenerStartUdp (network : ProtocolList) (udpBindOk : Bool)
    (st : ListenerState) : StartOutcome :=
  if network.Contain ProtocolUDP then
    if udpBindOk then
      let st := { st with udpConn := some () }
      match st.tcpListener with
      | none => .nilDeref
      | some _ => .ok st
    else .bindError
  else .ok st

/-- `Listener.Start` from listen.go. There is no started-state guard: the
function goes straight to the protocol branches on every call. -/
def listenerStart (network : ProtocolList) (tcpBindOk udpBindOk : Bool)
    (st : ListenerState) : StartOutcome :=
  if network.Contain ProtocolTCP then
    if tcpBindOk then
      listenerStartUdp network udpBindOk { st with tcpListener := some () }
    else .bindError
  else listenerStartUdp network udpBindOk st

/-! ### config.go: BindConfig.Parse and BindConfig.valid

`url.Parse` is an external collaborator; `BindConfig.Parse` receives its
output as a `URLParts` record (scheme, hostname, port string, decoded query).
`strconv.ParseBool`, `strconv.Atoi`, `time.ParseDuration` and
`netip.ParseAddr` are likewise external and enter as an oracle record;
`strconv.ParseUint(_, 10, 16)` for the port is small enough to embed
directly. The `Raw` field (the original URL string) is omitted: nothing
downstream reads it. -/

structure URLParts where
  scheme : String
  hostname : String
  portStr : String
  query : List (String × List String)

structure ExternalParsers where
  parseBool : String → Option Bool
  parseDuration : String → Option Nat
  atoi : String → Option Int
  parseAddr : String → Option Addr

/-- `strconv.ParseUint(s, 10, 16)`: non-empty decimal digits, value below
`2^16` (over the character list). -/
def parseUint16 (s : String) : Option Nat :=
  let chars := s.toList
  if chars.isEmpty then none
  else if chars.all Char.isDigit then
    let v := chars.foldl (fun acc c => acc * 10 + (c.toNat - 48)) 0
    if v < 65536 then some v else none
  else none

structure BindConfig where
  Network : Protocol
  Listen : Addr
  Port : Nat
  Remote : String
  Name : String
  Family : String
  Interface : String
  ReuseAddr : Bool
  TFO : Bool
  MPTCP : Bool
  UDPKeepaliveTTL : Nat
  UDPBufferSize : Int
  UDPFragment : Bool
deriving DecidableEq

/-- `NewDefaultBind` from config.go: zero values except the UDP TTL (60 s)
and buffer size. -/
def NewDefaultBind : BindConfig :=
  { Network := "", Listen := Addr.invalid, Port := 0, Remote := "", Name := "",
    Family := "", Interface := "", ReuseAddr := false, TFO := false,
    MPTCP := false, UDPKeepaliveTTL := 60, UDPBufferSize := 65507,
    UDPFragment := false }

/-- `BindConfig.valid` from config.go (second revision, lines 433-456): an
empty network defaults to `tcp+udp`; a valid listen address must not
contradict the family option; an unset listen address becomes the family's
unspecified address; the port must be non-zero. -/
def BindConfig.valid (c0 : BindConfig) : Except String BindConfig :=
  let c := if c0.Network = "" then { c0 with Network := ProtocolTCPUDP } else c0
  if c.Listen.IsValid then
    if c.Listen.Is6 ∧ c.Family = FamilyIPv4 then
      .error "bind: listen a ipv6 address with ipv4 family"
    else if c.Listen.Is4 ∧ c.Family = FamilyIPv6 then
      .error "bind: listen a ipv4 address with ipv6 family"
    else if c.Port = 0 then .error "bind: no port specified"
    else .ok c
  else
    let c := { c with
      Listen := if c.Family = FamilyIPv4 then Addr.v4 0 else Addr.v6 0 }
    if c.Port = 0 then .error "bind: no port specified"
    else .ok c

/-- The query-option loop of `BindConfig.Parse` (second revision): for each
key the last value wins; unknown keys are an error. -/
def bindParseQuery (ext : ExternalParsers) :
    List (String × List String) → BindConfig → Except String BindConfig
  | [], c => .ok c
  | (k, v) :: rest, c =>
    match v.getLast? with
    | none => bindParseQuery ext rest c
    | some val =>
      if k = "family" then bindParseQuery ext rest { c with Family := val }
      else if k = "interface" then bindParseQuery ext rest { c with Interface := val }
      else if k = "reuse_addr" then
        match ext.parseBool val with
        | none => .error ("parse bind: expected bool, got " ++ val)
        | some b => bindParseQuery ext rest { c with ReuseAddr := b }
      else if k = "name" then bindParseQuery ext rest { c with Name := val }
      else if k = "tfo" then
        match ext.parseBool val with
        | none => .error ("parse bind: expected bool, got " ++ val)
        | some b => bindParseQuery ext rest { c with TFO := b }
      else if k = "udp_ttl" then
        match ext.parseDuration val with
        | none => .error "parse bind: bad duration"
        | some d => bindParseQuery ext rest { c with UDPKeepaliveTTL := d }
      else if k = "remote" then bindParseQuery ext rest { c with Remote := val }
      else if k = "udp_buffer_size" then
        match ext.atoi val with
        | none => .error "parse bind: bad size"
        | some n => bindParseQuery ext rest { c with UDPBufferSize := n }
      else if k = "udp_fragment" then
        match ext.parseBool val with
        | none => .error ("parse bind: expected bool, got " ++ val)
        | some b => bindParseQuery ext rest { c with UDPFragment := b }
      else if k = "mptcp" then
        match ext.parseBool val with
        | none => .error ("parse bind: expected bool, got " ++ val)
        | some b => bindParseQuery ext rest { c with MPTCP := b }
      else .error ("parse bind: unknown option: " ++ k)

/-- `if uu.Scheme != "" { c.Network = constant.ParseProtocol(uu.Scheme) }` from
`BindConfig.Parse`. -/
def bindSetNetworkFromScheme (scheme : String) (c : BindConfig) : BindConfig :=
  if scheme ≠ "" then { c with Network := ParseProtocol scheme } else c

/-- `BindConfig.Parse` from config.go (second revision, lines 458-547), after
`url.Parse` succeeded: resolve the listen address (the zero `netip.Addr` when
the hostname is empty), the port, set `Network` from the scheme via
`ParseProtocol` when the scheme is non-empty, run the query loop, and finish
with `valid`. -/
def BindConfig.ParseURL (ext : ExternalParsers) (c : BindConfig) (u : URLParts) :
    Except String BindConfig :=
  let listenStep : Except String Addr :=
    if u.hostname ≠ "" then
      match ext.parseAddr u.hostname with
      | none => .error "parse bind: bad listen address"
      | some a => .ok a
    else .ok Addr.invalid
  match listenStep with
  | .error e => .error e
  | .ok listenAddress =>
    let c := { c with Listen := listenAddress }
    let portStep : Except String BindConfig :=
      if u.portStr ≠ "" then
        match parseUint16 u.portStr with
        | none => .error ("parse bind: bad port: " ++ u.portStr)
        | some p => .ok { c with Port := p }
      else .ok c
    match portStep with
    | .error e => .error e
    | .ok c =>
      let c := bindSetNetworkFromScheme u.scheme c
      match bindParseQuery ext u.query c with
      | .error e => .error e
      | .ok c => c.valid

/-! ## Theorems -/

/-! ### C1 — sub-dialer selection in DialSerial -/

/-- C1: refuted by the code — in `DialSerial` an IPv6 candidate is dialed with
the IPv4 sub-dialers: at network `tcp6` the single v6 candidate is attempted
with `dialer4`, and at `udp6` with `udpDialer4`, never with
`dialer6`/`udpDialer6`. -/
theorem claim1_dial_serial_v6_uses_ipv4_subdialer :
    (DialSerial (fun _ _ => false) false "tcp6" [Addr.v6 1] 443).1 =
      [{ sub := SubDialer.dialer4, addr := Addr.v6 1 }] ∧
    (DialSerial (fun _ _ => false) false "udp6" [Addr.v6 1] 443).1 =
      [{ sub := SubDialer.udpDialer4, addr := Addr.v6 1 }] := by
  exact ⟨rfl, rfl⟩

/-! ### C2 — randomSortAddresses -/

theorem listSwap_nil (i j : Nat) : listSwap [] i j = [] := rfl

theorem applySwaps_nil (swaps : List (Nat × Nat)) : applySwaps swaps [] = [] := by
  induction swaps with
  | nil => rfl
  | cons p rest ih =>
    show applySwaps rest (listSwap [] p.1 p.2) = []
    rw [listSwap_nil]
    exact ih

/-- C2: refuted by the code — `randomSortAddresses` on any list of two or more
addresses returns the empty list (the `copy` destination is a nil slice), not
a permutation of its input; consequently `SystemResolver.Lookup` on a host
answer of two IPv4 addresses returns no addresses at all. -/
theorem claim2_random_sort_not_permutation :
    (∀ (swaps : List (Nat × Nat)) (a b : Addr) (rest : List Addr),
      randomSortAddresses swaps (a :: b :: rest) = []) ∧
    systemResolverLookup [] [] StrategyDefault [Addr.v4 1, Addr.v4 2] =
      Except.ok ([], []) := by
  constructor
  · intro swaps a b rest
    have h : ¬ (a :: b :: rest).length ≤ 1 := by simp
    rw [randomSortAddresses, if_neg h]
    have hc : goCopy [] (a :: b :: rest) = [] := by
      simp [goCopy]
    rw [hc, applySwaps_nil]
  · rfl

/-! ### C5 — Network round-trip -/

/-- C5: counterexample — the dual-version network `(tcp, dual)` prints as
`tcp0`, which `ParseNetwork` rejects, so the round-trip fails at this valid
Network value. -/
theorem claim5_counterexample :
    ParseNetwork (Network.goString { Protocol := ProtocolTCP, Version := NetworkVersionDual }) ≠
      Except.ok { Protocol := ProtocolTCP, Version := NetworkVersionDual } := by
  have hv : ParseNetwork (Network.goString { Protocol := ProtocolTCP, Version := NetworkVersionDual }) =
      Except.error () := rfl
  rw [hv]
  intro h
  exact Except.noConfusion h

/-- C5 (amended): the round-trip `ParseNetwork (n.String()) = ok n` holds for
every Network whose version is v4 or v6 (all six protocol/version pairs); the
dual version is excluded, since `String()` renders it with a trailing `0`. -/
theorem claim5_roundtrip_v4_v6 (n : Network)
    (hp : n.Protocol = ProtocolTCP ∨ n.Protocol = ProtocolUDP ∨ n.Protocol = ProtocolIP)
    (hv : n.Version = NetworkVersion4 ∨ n.Version = NetworkVersion6) :
    ParseNetwork n.goString = Except.ok n := by
  obtain ⟨p, v⟩ := n
  simp only at hp hv
  rcases hp with hp | hp | hp <;> rcases hv with hv | hv <;> subst hp <;> subst hv <;> rfl

/-- C5 witness: the amended round-trip at `(tcp, v4)`. -/
theorem claim5_roundtrip_witness :
    ParseNetwork (Network.goString { Protocol := ProtocolTCP, Version := NetworkVersion4 }) =
      Except.ok { Protocol := ProtocolTCP, Version := NetworkVersion4 } :=
  claim5_roundtrip_v4_v6 _ (Or.inl rfl) (Or.inl rfl)

/-! ### C6 — RawClient.exchange read deadline -/

/-- C6: counterexample — at time 100 with a context deadline of 3600, the code
returns early with `DeadlineExceeded` instead of setting the read deadline
`min 3600 (100+5) = 105` that the claim requires. -/
theorem claim6_counterexample :
    exchangeReadDeadline 100 (some 3600) = Except.error () ∧
    (Except.error () : Except Unit Nat) ≠
      Except.ok (min 3600 (100 + ResolverDefaultReadTimeout)) := by
  refine ⟨rfl, ?_⟩
  intro h
  exact Except.noConfusion h

/-- C6 (amended): whenever the context carries a deadline (and the wall clock
is past the Go zero time), `exchange` returns `context.DeadlineExceeded`
before reading — the `After` check compares against the zero-valued local
`deadline`; only when the context has no deadline is a read deadline set, and
it is exactly now + 5 s. The minimum of the two is never computed. -/
theorem claim6_deadline_amended (now dead : Nat) :
    (0 < now → exchangeReadDeadline now (some dead) = Except.error ()) ∧
    exchangeReadDeadline now none = Except.ok (now + ResolverDefaultReadTimeout) := by
  constructor
  · intro h
    simp [exchangeReadDeadline, h]
  · rfl

/-- C6 witness: the amended behaviour at time 1 with and without a context
deadline of 10. -/
theorem claim6_deadline_witness :
    exchangeReadDeadline 1 (some 10) = Except.error () ∧
    exchangeReadDeadline 1 none = Except.ok 6 :=
  ⟨(claim6_deadline_amended 1 10).1 (by decide), (claim6_deadline_amended 1 10).2⟩

/-! ### C7 — zero-length datagrams in the receive loops -/

/-- C7: counterexample — the plain receive loop forwards a zero-length
datagram to the packet handler (the length-zero check is commented out), so
the claim fails for `loopUdpIn`. -/
theorem claim7_counterexample :
    loopUdpIn [RecvEvent.ok 0 ⟨Addr.v4 1, 9⟩] = [(0, ⟨Addr.v4 1, 9⟩)] ∧
    loopUdpIn [RecvEvent.ok 0 ⟨Addr.v4 1, 9⟩] ≠ [] := by
  exact ⟨rfl, by decide⟩

/-- C7 (amended): only the out-of-band receive loop suppresses zero-length
datagrams — it never hands a zero-length payload to the handler — while the
plain receive loop forwards a zero-length datagram to the handler. -/
theorem claim7_zero_length_amended (events : List RecvEvent) :
    (∀ p ∈ loopUdpInOOb events, p.1 ≠ 0) ∧
    (∀ client, loopUdpIn [RecvEvent.ok 0 client] = [(0, client)]) := by
  constructor
  · induction events with
    | nil => simp [loopUdpInOOb]
    | cons e rest ih =>
      cases e with
      | ok n remote =>
        by_cases h : n = 0
        · simpa [loopUdpInOOb, h] using ih
        · intro p hp
          rw [loopUdpInOOb, if_neg h] at hp
          rcases List.mem_cons.mp hp with hp | hp
          · subst hp; exact h
          · exact ih p hp
      | err ctxDone =>
        intro p hp
        rw [loopUdpInOOb] at hp
        by_cases hd : ctxDone = true
        · rw [if_pos hd] at hp
          exact absurd hp (List.not_mem_nil p)
        · rw [if_neg hd] at hp
          exact ih p hp
  · intro client
    rfl

/-- C7 witness: the amended statement at a one-datagram OOB trace and at a
zero-length datagram in the plain loop. -/
theorem claim7_zero_length_witness :
    ((3 : Nat), (⟨Addr.v4 1, 9⟩ : AddrPort)).1 ≠ 0 ∧
    loopUdpIn [RecvEvent.ok 0 ⟨Addr.v4 1, 9⟩] = [(0, ⟨Addr.v4 1, 9⟩)] :=
  ⟨(claim7_zero_length_amended [RecvEvent.ok 3 ⟨Addr.v4 1, 9⟩]).1 (3, ⟨Addr.v4 1, 9⟩) (by decide),
   (claim7_zero_length_amended []).2 ⟨Addr.v4 1, 9⟩⟩

/-! ### C8 — calling Start twice -/

/-- C8: counterexample — `Start` has no re-entry guard: after a successful
first Start on a TCP listener, a second Start with succeeding OS binds again
returns success (it re-binds), not an error. -/
theorem claim8_counterexample :
    listenerStart ["tcp"] true true { tcpListener := none, udpConn := none } =
      StartOutcome.ok { tcpListener := some (), udpConn := none } ∧
    listenerStart ["tcp"] true true { tcpListener := some (), udpConn := none } =
      StartOutcome.ok { tcpListener := some (), udpConn := none } ∧
    StartOutcome.ok { tcpListener := some (), udpConn := none } ≠ StartOutcome.bindError := by
  exact ⟨rfl, rfl, by decide⟩

/-- C8 (amended): `Start` keeps no started-state and performs no second-call
check — on a TCP listener its outcome is a function of the fresh OS bind
result alone, identical on a fresh and on an already-started listener, and it
fails only when the OS-level bind fails. -/
theorem claim8_start_amended (st : ListenerState) (tcpBindOk udpBindOk : Bool) :
    listenerStart ["tcp"] tcpBindOk udpBindOk st =
      if tcpBindOk then StartOutcome.ok { st with tcpListener := some () }
      else StartOutcome.bindError := by
  cases tcpBindOk <;> rfl

/-! ### C9 — UDP-only Start dereferences the nil TCP listener -/

/-- C9: refuted by the code — on a UDP-only listener whose UDP bind succeeds,
`Start` reaches the startup log that calls `l.tcpListener.Addr()` with
`tcpListener` still nil and panics instead of returning nil. -/
theorem claim9_udp_only_start_panics :
    listenerStart ["udp"] true true { tcpListener := none, udpConn := none } =
      StartOutcome.nilDeref := rfl

/-! ### C3 — upstream-read loop error handling -/

/-- C3: in the per-flow upstream-read loop, an error that is a `*net.OpError`
wrapping `ECONNREFUSED` makes the loop continue reading with the flow's
map entry untouched (the run is the run on the remaining reads), while any
other error terminates the loop, removes the flow's entry from the
connection-track map, and closes the upstream socket. -/
theorem claim3_udp_loop_error_handling (client : AddrPort) (track : List AddrPort)
    (isOp refused : Bool) (rest : List UdpReadResult) :
    (isOp = true → refused = true →
      newUdpLoop client track (UdpReadResult.err isOp refused :: rest) =
        newUdpLoop client track rest) ∧
    (isOp = false ∨ refused = false →
      newUdpLoop client track (UdpReadResult.err isOp refused :: rest) =
        { stillRunning := false, track := track.filter (fun k => k ≠ client),
          connClosed := true, written := [] } ∧
      client ∉ (newUdpLoop client track (UdpReadResult.err isOp refused :: rest)).track) := by
  constructor
  · intro h1 h2
    subst h1
    subst h2
    rfl
  · intro h
    have hb : (isOp && refused) = false := by
      rcases h with h | h <;> subst h <;> simp
    have hrun : newUdpLoop client track (UdpReadResult.err isOp refused :: rest) =
        { stillRunning := false, track := track.filter (fun k => k ≠ client),
          connClosed := true, written := [] } := by
      rw [newUdpLoop, hb]
      simp
    refine ⟨hrun, ?_⟩
    rw [hrun]
    simp

/-- C3 witness: the ECONNREFUSED branch at a concrete flow continues with the
map intact, and a non-refused error terminates, evicts and closes. -/
theorem claim3_udp_loop_witness :
    newUdpLoop ⟨Addr.v4 1, 1000⟩ [⟨Addr.v4 1, 1000⟩] [UdpReadResult.err true true] =
      newUdpLoop ⟨Addr.v4 1, 1000⟩ [⟨Addr.v4 1, 1000⟩] [] ∧
    newUdpLoop ⟨Addr.v4 1, 1000⟩ [⟨Addr.v4 1, 1000⟩] [UdpReadResult.err true false] =
      { stillRunning := false,
        track := [(⟨Addr.v4 1, 1000⟩ : AddrPort)].filter (fun k => k ≠ ⟨Addr.v4 1, 1000⟩),
        connClosed := true, written := [] } :=
  ⟨(claim3_udp_loop_error_handling ⟨Addr.v4 1, 1000⟩ [⟨Addr.v4 1, 1000⟩] true true []).1 rfl rfl,
   ((claim3_udp_loop_error_handling ⟨Addr.v4 1, 1000⟩ [⟨Addr.v4 1, 1000⟩] true false []).2
      (Or.inr rfl)).1⟩

/-! ### C4 — the supervisor dialer table -/

theorem initDialerAux_ok_spec (g : Bool) :
    ∀ (remotes : List RemoteConfig) (table table' : List (String × DialerEntry)),
      initDialerAux g remotes table = (table', none) →
      table'.map Prod.fst = table.map Prod.fst ++ remotes.map RemoteConfig.Name ∧
      (∀ r ∈ remotes, r.Name ≠ "") ∧
      ((table.map Prod.fst).Nodup → (table'.map Prod.fst).Nodup) := by
  intro remotes
  induction remotes with
  | nil =>
    intro table table' h
    rw [initDialerAux] at h
    injection h with h1 h2
    subst h1
    simp
  | cons v rest ih =>
    intro table table' h
    rw [initDialerAux] at h
    by_cases hname : v.Name = ""
    · rw [if_pos hname] at h
      injection h with h1 h2
      exact absurd h2.symm (Option.noConfusion)
    · rw [if_neg hname] at h
      by_cases hdup : table.any (fun e => e.1 = v.Name)
      · rw [if_pos hdup] at h
        injection h with h1 h2
        exact absurd h2.symm (Option.noConfusion)
      · rw [if_neg hdup] at h
        by_cases hfw : newDefaultOk g v.FwMark
        · rw [if_neg (by simpa using hfw)] at h
          obtain ⟨hkeys, hnames, hnodup⟩ := ih _ _ h
          have hmem : v.Name ∉ table.map Prod.fst := by
            intro hmem
            apply hdup
            rw [List.any_eq_true]
            obtain ⟨e, he, heq⟩ := List.mem_map.mp hmem
            exact ⟨e, he, by simp [heq]⟩
          refine ⟨?_, ?_, ?_⟩
          · rw [hkeys]
            simp
          · intro r hr
            rcases List.mem_cons.mp hr with hr | hr
            · subst hr; exact hname
            · exact hnames r hr
          · intro hnd
            apply hnodup
            rw [List.map_append]
            rw [List.nodup_append]
            refine ⟨hnd, by simp, ?_⟩
            intro a ha hb
            simp at hb
            subst hb
            exact hmem ha
        · rw [if_pos (by simpa using hfw)] at h
          injection h with h1 h2
          exact absurd h2.symm (Option.noConfusion)

theorem initDialerAux_keys_nodup (g : Bool) :
    ∀ (remotes : List RemoteConfig) (table : List (String × DialerEntry)),
      (table.map Prod.fst).Nodup →
      (((initDialerAux g remotes table).1).map Prod.fst).Nodup := by
  intro remotes
  induction remotes with
  | nil =>
    intro table h
    simpa [initDialerAux] using h
  | cons v rest ih =>
    intro table h
    rw [initDialerAux]
    by_cases hname : v.Name = ""
    · rw [if_pos hname]
      exact h
    · rw [if_neg hname]
      by_cases hdup : table.any (fun e => e.1 = v.Name)
      · rw [if_pos hdup]
        exact h
      · rw [if_neg hdup]
        by_cases hfw : newDefaultOk g v.FwMark
        · rw [if_neg (by simpa using hfw)]
          apply ih
          have hmem : v.Name ∉ table.map Prod.fst := by
            intro hmem
            apply hdup
            rw [List.any_eq_true]
            obtain ⟨e, he, heq⟩ := List.mem_map.mp hmem
            exact ⟨e, he, by simp [heq]⟩
          rw [List.map_append, List.nodup_append]
          refine ⟨h, by simp, ?_⟩
          intro a ha hb
          simp at hb
          subst hb
          exact hmem ha
        · rw [if_pos (by simpa using hfw)]
          exact h

/-- C4: after `initDialer` succeeds, the table holds exactly one entry under
every remote's name; when some remote has an empty name or two remotes share
a name, `initDialer` reports an error; and the table never holds two entries
under one key, also on the error path. -/
theorem claim4_dialer_table (g : Bool) (remotes : List RemoteConfig) :
    (∀ table, initDialer g remotes = (table, none) →
      ∀ r ∈ remotes, (table.map Prod.fst).count r.Name = 1) ∧
    (((∃ r ∈ remotes, r.Name = "") ∨ ¬ (remotes.map RemoteConfig.Name).Nodup) →
      (initDialer g remotes).2.isSome = true) ∧
    ((initDialer g remotes).1.map Prod.fst).Nodup := by
  refine ⟨?_, ?_, ?_⟩
  · intro table h r hr
    obtain ⟨hkeys, -, hnodup⟩ := initDialerAux_ok_spec g remotes [] table h
    have hnd : (table.map Prod.fst).Nodup := hnodup (by simp)
    have hmem : r.Name ∈ table.map Prod.fst := by
      rw [hkeys]
      simp only [List.map_nil, List.nil_append]
      exact List.mem_map.mpr ⟨r, hr, rfl⟩
    exact List.count_eq_one_of_mem hnd hmem
  · intro h
    cases heq : (initDialer g remotes).2 with
    | some e => rfl
    | none =>
      exfalso
      have hfull : initDialerAux g remotes [] = ((initDialer g remotes).1, none) := by
        rw [← heq]
        exact rfl
      obtain ⟨hkeys, hnames, hnodup⟩ := initDialerAux_ok_spec g remotes [] _ hfull
      rcases h with ⟨r, hr, hempty⟩ | hnd
      · exact hnames r hr hempty
      · apply hnd
        have := hnodup (by simp)
        rw [hkeys] at this
        simpa using this
  · exact initDialerAux_keys_nodup g remotes [] (by simp)

/-- C4 witness: a successful construction over two distinct names has count 1
under the first name, and a duplicated name yields an error. -/
theorem claim4_dialer_table_witness :
    (((initDialer true [⟨"a", "h", 1, "", 0⟩, ⟨"b", "h", 2, "", 0⟩]).1.map Prod.fst).count "a" = 1) ∧
    (initDialer true [⟨"a", "h", 1, "", 0⟩, ⟨"a", "h2", 2, "", 0⟩]).2.isSome = true :=
  ⟨(claim4_dialer_table true [⟨"a", "h", 1, "", 0⟩, ⟨"b", "h", 2, "", 0⟩]).1 _ rfl
      ⟨"a", "h", 1, "", 0⟩ (by simp),
   (claim4_dialer_table true [⟨"a", "h", 1, "", 0⟩, ⟨"a", "h2", 2, "", 0⟩]).2.1
      (Or.inr (by decide))⟩

/-! ### C10 — unknown bind-URL scheme -/

/-- C10: a bind URL whose scheme is not a recognised protocol string parses
successfully — `ParseProtocol` maps the unknown scheme to the empty protocol,
and `valid` replaces the empty protocol with `tcp+udp` — yielding a
BindConfig with protocol `tcp+udp` (shown for a URL binding port 8080 with a
`remote` query). -/
theorem claim10_unknown_scheme (scheme : String)
    (h1 : scheme ∉ [ProtocolTCP, ProtocolUDP, ProtocolIP])
    (h2 : goSplitPlus scheme ≠ ["tcp", "udp"])
    (h3 : goSplitPlus scheme ≠ ["udp", "tcp"]) :
    ParseProtocol scheme = "" ∧
    ∀ ext : ExternalParsers,
      BindConfig.ParseURL ext NewDefaultBind ⟨scheme, "", "8080", [("remote", ["r"])]⟩ =
        Except.ok { NewDefaultBind with
                    Network := ProtocolTCPUDP, Listen := Addr.v6 0,
                    Port := 8080, Remote := "r" } := by
  simp only [List.mem_cons, List.not_mem_nil, or_false, not_or] at h1
  obtain ⟨ht, hu, hi⟩ := h1
  have hp : ParseProtocol scheme = "" := by
    unfold ParseProtocol
    by_cases hl : scheme.length = 0
    · rw [if_pos hl]
    · rw [if_neg hl, if_neg ht, if_neg hu, if_neg hi]
      rcases hsp : goSplitPlus scheme with _ | ⟨a, _ | ⟨b, _ | ⟨c, t⟩⟩⟩
      · rfl
      · rfl
      · show (if (a = "tcp" ∧ b = "udp") ∨ (a = "udp" ∧ b = "tcp") then ProtocolTCPUDP
             else ("" : String)) = ""
        apply if_neg
        rintro (⟨ha, hb⟩ | ⟨ha, hb⟩) <;> subst ha <;> subst hb
        · exact h2 hsp
        · exact h3 hsp
      · rfl
  refine ⟨hp, ?_⟩
  intro ext
  have hred : BindConfig.ParseURL ext NewDefaultBind ⟨scheme, "", "8080", [("remote", ["r"])]⟩ =
      BindConfig.valid
        { bindSetNetworkFromScheme scheme { NewDefaultBind with Listen := Addr.invalid, Port := 8080 }
          with Remote := "r" } := rfl
  have key : bindSetNetworkFromScheme scheme
      { NewDefaultBind with Listen := Addr.invalid, Port := 8080 } =
      { NewDefaultBind with Listen := Addr.invalid, Port := 8080 } := by
    unfold bindSetNetworkFromScheme
    by_cases hs0 : scheme = ""
    · rw [if_neg (by simp [hs0])]
    · rw [if_pos hs0, hp]
      rfl
  rw [hred, key]
  rfl

/-- C10 witness: the scheme `foo` yields the empty protocol and a valid
BindConfig with protocol `tcp+udp`. -/
theorem claim10_unknown_scheme_witness :
    ParseProtocol "foo" = "" ∧
    BindConfig.ParseURL ⟨fun _ => none, fun _ => none, fun _ => none, fun _ => none⟩
        NewDefaultBind ⟨"foo", "", "8080", [("remote", ["r"])]⟩ =
      Except.ok { NewDefaultBind with
                  Network := ProtocolTCPUDP, Listen := Addr.v6 0,
                  Port := 8080, Remote := "r" } := by
  have h := claim10_unknown_scheme "foo" (by decide) (by decide) (by decide)
  exact ⟨h.1, h.2 ⟨fun _ => none, fun _ => none, fun _ => none, fun _ => none⟩⟩

end Traffics
